import Mathlib

/-!
Verification of the RustiFlow core: the fixed-layout eBPF packet event records
(`common/src/lib.rs`) and the generic flow table engine
(`rustiflow/src/flow_table.rs`).

Modelling conventions:
* Machine integers are modelled as `Nat`/`Int`; the one place where overflow
  matters (the `as u64` cast of `chrono::TimeDelta::num_seconds`) is modelled
  explicitly with `% 2^64`.
* `chrono::DateTime<Utc>` timestamps are modelled as `Int` milliseconds;
  `TimeDelta::num_seconds` is truncating division by 1000 (`Int.tdiv`).
* The `tokio::sync::mpsc::Sender` export channel is modelled by a flag
  `chanOpen` (is the receiver still alive?), a list `delivered` of flows
  successfully sent, and a counter `errorLog` of `error!` log lines emitted
  for failed sends.  `HashMap<String, T>` is modelled as an association list
  with distinct keys (`insert` replaces, `remove` deletes the unique binding);
  since a `HashMap`'s iteration order is unspecified, the list order stands in
  for one arbitrary iteration order.
-/

namespace RustiFlow

/-! ### C-representation layout (`#[repr(C)]`), for the event records -/

/-- One field of a `#[repr(C)]` struct: its size and alignment in bytes. -/
structure CField where
  size : Nat
  align : Nat
deriving DecidableEq

/-- Round `off` up to the next multiple of `a`. -/
def alignUp (off a : Nat) : Nat := ((off + a - 1) / a) * a

/-- The C struct layout algorithm: place every field at the next
offset aligned for it, then round the end offset up to the struct's
alignment (the maximum field alignment). -/
def layoutSize (fields : List CField) : Nat :=
  let fin := fields.foldl
    (fun (acc : Nat × Nat) f => (alignUp acc.1 f.align + f.size, max acc.2 f.align))
    (0, 1)
  alignUp fin.1 fin.2

/-- Sum of the raw field widths, ignoring all alignment padding.  Any layout
of the struct is at least this large. -/
def sizeSum (fields : List CField) : Nat := (fields.map (fun f => f.size)).sum

def fieldU8 : CField := ⟨1, 1⟩
def fieldU16 : CField := ⟨2, 2⟩
def fieldU32 : CField := ⟨4, 4⟩
/-- `u128` on current Rust (≥ 1.77) has alignment 16 on x86-64 Linux. -/
def fieldU128 : CField := ⟨16, 16⟩
/-- `u128` on older Rust had alignment 8 on x86-64; kept to show the size
mismatch does not depend on the `u128` ABI. -/
def fieldU128align8 : CField := ⟨16, 8⟩
def fieldU8Array (n : Nat) : CField := ⟨n, 1⟩

/-- The fields of `EbpfEventIpv4`, in declaration order:
`ipv4_destination: u32, ipv4_source: u32, port_destination: u16,
port_source: u16, data_length: u16, length: u16, window_size: u16,
combined_flags: u8, protocol: u8, header_length: u8, sequence_number: u32,
_padding: [u8; 3]`. -/
def EbpfEventIpv4_fields : List CField :=
  [fieldU32, fieldU32, fieldU16, fieldU16, fieldU16, fieldU16, fieldU16,
   fieldU8, fieldU8, fieldU8, fieldU32, fieldU8Array 3]

/-- The fields of `EbpfEventIpv6`, in declaration order:
`ipv6_destination: u128, ipv6_source: u128, port_destination: u16,
port_source: u16, data_length: u16, length: u16, window_size: u16,
combined_flags: u8, protocol: u8, header_length: u8, sequence_number: u32,
_padding: [u8; 15]`. -/
def EbpfEventIpv6_fields : List CField :=
  [fieldU128, fieldU128, fieldU16, fieldU16, fieldU16, fieldU16, fieldU16,
   fieldU8, fieldU8, fieldU8, fieldU32, fieldU8Array 15]

/-- `EbpfEventIpv6` with the older `u128` alignment of 8. -/
def EbpfEventIpv6_fields_align8 : List CField :=
  [fieldU128align8, fieldU128align8, fieldU16, fieldU16, fieldU16, fieldU16,
   fieldU16, fieldU8, fieldU8, fieldU8, fieldU32, fieldU8Array 15]

/-! ### Time, packets and flow keys -/

/-- `chrono::DateTime<Utc>`, as milliseconds since the epoch. -/
abbrev Time := Int

/-- `chrono::TimeDelta::num_seconds`: the whole-second part of a duration
given in milliseconds, truncated toward zero. -/
def num_seconds (d : Int) : Int := Int.tdiv d 1000

/-- The Rust cast `as u64` applied to an `i64` value: two's-complement
reinterpretation, i.e. reduction modulo `2^64` into `[0, 2^64)`. -/
def asU64 (i : Int) : Nat := (Int.emod i (2 ^ 64)).toNat

/-- Modelled from the spec: the flow key derived by
`PacketFeatures::flow_key` / `flow_key_bwd` (the file
`rustiflow/src/packet_features.rs` is not under `src/`).  §3 describes the
keys as the source→destination (resp. destination→source) ordering of the
5-tuple, with the two being tuple-swap inverses of each other; we model the
string key by the 5-tuple itself. -/
structure FlowKey where
  ip_a : Nat
  port_a : Nat
  ip_b : Nat
  port_b : Nat
  proto : Nat
deriving DecidableEq

/-- Swap the endpoint pair of a key (source↔destination). -/
def keySwap (k : FlowKey) : FlowKey := ⟨k.ip_b, k.port_b, k.ip_a, k.port_a, k.proto⟩

/-- Modelled from the spec: `PacketFeatures` (not under `src/`), §3 "Packet
Features": the per-packet view consumed by the flow table — source and
destination IP and port, protocol and the event timestamp. -/
structure PacketFeatures where
  source_ip : Nat
  destination_ip : Nat
  source_port : Nat
  destination_port : Nat
  protocol : Nat
  timestamp : Time
deriving DecidableEq

/-- Modelled from the spec: `flow_key()`, the source→destination ordering of
the 5-tuple. -/
def PacketFeatures.flow_key (p : PacketFeatures) : FlowKey :=
  ⟨p.source_ip, p.source_port, p.destination_ip, p.destination_port, p.protocol⟩

/-- Modelled from the spec: `flow_key_bwd()`, the destination→source ordering
of the 5-tuple. -/
def PacketFeatures.flow_key_bwd (p : PacketFeatures) : FlowKey :=
  ⟨p.destination_ip, p.destination_port, p.source_ip, p.source_port, p.protocol⟩

/-! ### The `Flow` trait -/

/-- The `Flow` trait of the repository: the capability contract required of
every flow-feature variant.  `update_flow` takes `&mut self` in Rust and
returns the termination flag; here it returns the updated flow paired with
that flag.  `clone` is the identity on pure values and is not listed. -/
class Flow (T : Type) where
  new : FlowKey → Nat → Nat → Nat → Nat → Nat → Time → T
  update_flow : T → PacketFeatures → Bool → T × Bool
  is_expired : T → Time → Nat → Nat → Bool
  get_first_timestamp : T → Time

/-! ### The flow map (`HashMap<String, T>`) -/

/-- Look up the value bound to `k` (`HashMap::get`). -/
def lookupKey {T : Type} (m : List (FlowKey × T)) (k : FlowKey) : Option T :=
  match m with
  | [] => none
  | kv :: rest => if kv.1 = k then some kv.2 else lookupKey rest k

/-- `HashMap::contains_key`. -/
def containsKey {T : Type} (m : List (FlowKey × T)) (k : FlowKey) : Bool :=
  (lookupKey m k).isSome

/-- `HashMap::remove`: delete the binding of `k`.  Reachable maps never bind a
key twice, so removing every binding of `k` coincides with removing the unique
one. -/
def eraseKey {T : Type} (m : List (FlowKey × T)) (k : FlowKey) : List (FlowKey × T) :=
  m.filter (fun kv => decide (kv.1 ≠ k))

/-- Replace the value bound to `k`, keeping everything else in place (the
in-place mutation through `HashMap::get_mut`). -/
def updateKey {T : Type} (m : List (FlowKey × T)) (k : FlowKey) (v : T) :
    List (FlowKey × T) :=
  m.map (fun kv => if kv.1 = k then (k, v) else kv)

/-- `HashMap::insert`: bind `k` to `v`, replacing any previous binding. -/
def insertKey {T : Type} (m : List (FlowKey × T)) (k : FlowKey) (v : T) :
    List (FlowKey × T) :=
  if containsKey m k then updateKey m k v else m ++ [(k, v)]

/-- The keys of the map are pairwise distinct (true of every map reachable
from `FlowTable::new`, since `HashMap` never binds a key twice). -/
def NodupKeys {T : Type} (m : List (FlowKey × T)) : Prop :=
  (m.map (fun kv => kv.1)).Nodup

instance {T : Type} (m : List (FlowKey × T)) : Decidable (NodupKeys m) := by
  unfold NodupKeys; infer_instance

/-! ### The flow table -/

/-- `const EXPIRATION_CHECK_INTERVAL: TimeDelta = chrono::Duration::seconds(60)`,
in milliseconds. -/
def EXPIRATION_CHECK_INTERVAL : Time := 60 * 1000

/-- `FlowTable<T>` together with the observable state of its export channel:
`chanOpen` models whether the `mpsc` receiver is still alive, `delivered` the
flows successfully sent on the channel, and `errorLog` the number of
`error!("Failed to send flow: ...")` lines logged for failed sends. -/
structure FlowTable (T : Type) where
  flow_map : List (FlowKey × T)
  active_timeout : Nat
  idle_timeout : Nat
  early_export : Option Nat
  next_check_time : Option Time
  chanOpen : Bool
  delivered : List T
  errorLog : Nat
deriving DecidableEq

/-- `FlowTable::new`: empty map, the given configuration, no scheduled
expiration check.  The `export_channel` argument is modelled by the state of
its receiving end. -/
def FlowTable.new (T : Type) (active_timeout idle_timeout : Nat)
    (early_export : Option Nat) (chanOpen : Bool) : FlowTable T :=
  { flow_map := []
    active_timeout := active_timeout
    idle_timeout := idle_timeout
    early_export := early_export
    next_check_time := none
    chanOpen := chanOpen
    delivered := []
    errorLog := 0 }

/-- `FlowTable::export_flow`: send the flow on the export channel; if the send
fails (receiver gone), log the error and drop the flow.  `&self` in Rust: the
flow map and configuration are untouched. -/
def FlowTable.export_flow {T : Type} (s : FlowTable T) (flow : T) : FlowTable T :=
  if s.chanOpen then { s with delivered := s.delivered ++ [flow] }
  else { s with errorLog := s.errorLog + 1 }

/-- One iteration of the removal loop of `export_expired_flows`:
`if let Some(flow) = self.flow_map.remove(&key) { self.export_flow(flow).await; }`. -/
def FlowTable.expire_step {T : Type} (s : FlowTable T) (k : FlowKey) : FlowTable T :=
  match lookupKey s.flow_map k with
  | some flow => FlowTable.export_flow { s with flow_map := eraseKey s.flow_map k } flow
  | none => s

/-- `FlowTable::export_expired_flows(timestamp)`: first collect the keys of
all flows expired at `timestamp` (phase one, over the unmodified map), then
remove and export each of them (phase two). -/
def FlowTable.export_expired_flows {T : Type} [Flow T] (s : FlowTable T)
    (timestamp : Time) : FlowTable T :=
  let expired_flows :=
    (s.flow_map.filter
      (fun kv => Flow.is_expired kv.2 timestamp s.active_timeout s.idle_timeout)).map
      (fun kv => kv.1)
  expired_flows.foldl FlowTable.expire_step s

/-- The expiration gate of `process_packet`:
`self.next_check_time.map_or(true, |next_check| packet.timestamp >= next_check)`. -/
def sweepRuns {T : Type} (s : FlowTable T) (p : PacketFeatures) : Bool :=
  match s.next_check_time with
  | none => true
  | some next_check => decide (next_check ≤ p.timestamp)

/-- The first half of `process_packet`: run the expiration sweep if the gate
is open, and reschedule the next check 60 event-seconds after this packet. -/
def sweepPhase {T : Type} [Flow T] (s : FlowTable T) (p : PacketFeatures) :
    FlowTable T :=
  if sweepRuns s p then
    { s.export_expired_flows p.timestamp with
      next_check_time := some (p.timestamp + EXPIRATION_CHECK_INTERVAL) }
  else s

/-- Direction resolution (`process_packet`, lines 53–57): use the backward key
if it is present in the map, otherwise the forward key. -/
def resolvedKey {T : Type} (m : List (FlowKey × T)) (p : PacketFeatures) : FlowKey :=
  if containsKey m p.flow_key_bwd then p.flow_key_bwd else p.flow_key

/-- The second half of `process_packet` (lines 52–107): key resolution,
expiry replacement, update/termination, early export, or creation. -/
def processBody {T : Type} [Flow T] (s : FlowTable T) (p : PacketFeatures) :
    FlowTable T :=
  match lookupKey s.flow_map (resolvedKey s.flow_map p) with
  | some flow =>
    if Flow.is_expired flow p.timestamp s.active_timeout s.idle_timeout then
      -- remove and export the stale flow, then insert a brand-new flow for
      -- this packet under the forward key
      let s1 := FlowTable.export_flow
        { s with flow_map := eraseKey s.flow_map (resolvedKey s.flow_map p) } flow
      let new_flow := Flow.new p.flow_key p.source_ip p.source_port
        p.destination_ip p.destination_port p.protocol p.timestamp
      { s1 with flow_map := insertKey s1.flow_map p.flow_key new_flow }
    else
      -- update the flow in forward or backward direction
      let is_forward := decide (resolvedKey s.flow_map p = p.flow_key)
      let upd := Flow.update_flow flow p is_forward
      let s1 := { s with flow_map := updateKey s.flow_map (resolvedKey s.flow_map p) upd.1 }
      if upd.2 then
        -- terminated: remove and export
        FlowTable.export_flow
          { s1 with flow_map := eraseKey s1.flow_map (resolvedKey s.flow_map p) } upd.1
      else
        match s.early_export with
        | some early_export =>
          -- export a clone without removing it from the table
          if asU64 (num_seconds (p.timestamp - Flow.get_first_timestamp upd.1)) > early_export
          then FlowTable.export_flow s1 upd.1
          else s1
        | none => s1
  | none =>
    -- no such flow: create a new flow under the resolved key
    let new_flow := Flow.new (resolvedKey s.flow_map p) p.source_ip p.source_port
      p.destination_ip p.destination_port p.protocol p.timestamp
    { s with flow_map := insertKey s.flow_map (resolvedKey s.flow_map p) new_flow }

/-- `FlowTable::process_packet(packet)`. -/
def FlowTable.process_packet {T : Type} [Flow T] (s : FlowTable T)
    (p : PacketFeatures) : FlowTable T :=
  processBody (sweepPhase s p) p

/-- A sequence of `process_packet` calls. -/
def process_all {T : Type} [Flow T] (s : FlowTable T) (ps : List PacketFeatures) :
    FlowTable T :=
  ps.foldl FlowTable.process_packet s

/-- `sort_by_key(get_first_timestamp)` applied to the drained flows of the
map (a stable sort, as Rust's `sort_by_key`). -/
def sortedFlows {T : Type} [Flow T] (s : FlowTable T) : List T :=
  List.insertionSort
    (fun f g => Flow.get_first_timestamp f ≤ Flow.get_first_timestamp g)
    (s.flow_map.map (fun kv => kv.2))

/-- `FlowTable::export_all_flows`: drain the whole map, sort the flows by
first-seen timestamp, and export each in that order. -/
def FlowTable.export_all_flows {T : Type} [Flow T] (s : FlowTable T) : FlowTable T :=
  (sortedFlows s).foldl FlowTable.export_flow { s with flow_map := [] }

/-- The at-most-one-entry-per-conversation invariant: the map never holds a
key together with its (distinct) endpoint swap. -/
def goodMap {T : Type} (m : List (FlowKey × T)) : Prop :=
  ∀ k, containsKey m k = true → containsKey m (keySwap k) = true → keySwap k = k

/-- The guard of the flow-creating branches of `process_packet` (applied to
the post-sweep state and resolved key): no flow under the resolved key, or an
expired one. -/
def creationCase {T : Type} [Flow T] (s : FlowTable T) (rk : FlowKey)
    (p : PacketFeatures) : Bool :=
  match lookupKey s.flow_map rk with
  | none => true
  | some flow => Flow.is_expired flow p.timestamp s.active_timeout s.idle_timeout

/-- The key the flow-creating branches insert under: the resolved key when no
flow existed (necessarily the forward key), the forward key on expiry
replacement. -/
def createdKey {T : Type} [Flow T] (s : FlowTable T) (rk : FlowKey)
    (p : PacketFeatures) : FlowKey :=
  match lookupKey s.flow_map rk with
  | none => rk
  | some _ => p.flow_key

/-- Two table states agree on the configuration fields and the channel state
(none of the operations ever change these). -/
def sameConfig {T : Type} (s s' : FlowTable T) : Prop :=
  s'.active_timeout = s.active_timeout ∧ s'.idle_timeout = s.idle_timeout ∧
  s'.early_export = s.early_export ∧ s'.chanOpen = s.chanOpen

/-- Ordering on the optional next-check timestamp: unset (`none`) precedes
everything, and a scheduled check only compares set times. -/
def optLE : Option Time → Option Time → Prop
  | none, _ => True
  | some a, some b => a ≤ b
  | some _, none => False

/-! ### A concrete `Flow` implementation for concrete runs -/

/-- A concrete implementation of the `Flow` trait used for the concrete runs
below: it keeps its key, the first-seen timestamp and a packet count, treats
a packet with an odd timestamp as a termination signal, and is expired once
the event time exceeds the first-seen time by more than `active_timeout`
seconds. -/
structure ToyFlow where
  key : FlowKey
  first : Time
  packets : Nat
deriving DecidableEq

instance : Flow ToyFlow where
  new k _ _ _ _ _ t := ⟨k, t, 1⟩
  update_flow f p _ := (⟨f.key, f.first, f.packets + 1⟩, decide (Int.emod p.timestamp 2 = 1))
  is_expired f now act _ := decide ((act : Int) * 1000 < now - f.first)
  get_first_timestamp f := f.first

/-- A packet fixture: source IP/port, destination IP/port, protocol and
timestamp. -/
def tpkt (src sport dst dport proto : Nat) (t : Time) : PacketFeatures :=
  { source_ip := src
    destination_ip := dst
    source_port := sport
    destination_port := dport
    protocol := proto
    timestamp := t }

/-- A table fixture over `ToyFlow` with an empty export history. -/
def mkTable (m : List (FlowKey × ToyFlow)) (act idl : Nat) (ee : Option Nat)
    (nct : Option Time) (ch : Bool) : FlowTable ToyFlow :=
  { flow_map := m
    active_timeout := act
    idle_timeout := idl
    early_export := ee
    next_check_time := nct
    chanOpen := ch
    delivered := []
    errorLog := 0 }

/-! ### Basic facts about keys and the map operations -/

theorem keySwap_keySwap (k : FlowKey) : keySwap (keySwap k) = k := rfl

/-- §3 invariant: the two derived keys are tuple-swap inverses of each
other. -/
theorem flow_key_bwd_eq_swap (p : PacketFeatures) :
    p.flow_key_bwd = keySwap p.flow_key := rfl

theorem lookupKey_eraseKey_self {T : Type} (m : List (FlowKey × T)) (k : FlowKey) :
    lookupKey (eraseKey m k) k = none := by
  induction m with
  | nil => rfl
  | cons kv rest ih =>
    rcases eq_or_ne kv.1 k with h | h
    · simpa [eraseKey, List.filter_cons, h] using ih
    · simpa [eraseKey, List.filter_cons, h, lookupKey] using ih

theorem lookupKey_cons {T : Type} (kv : FlowKey × T) (rest : List (FlowKey × T))
    (k : FlowKey) :
    lookupKey (kv :: rest) k = if kv.1 = k then some kv.2 else lookupKey rest k := rfl

theorem lookupKey_eraseKey_ne {T : Type} (m : List (FlowKey × T)) {k k' : FlowKey}
    (h : k' ≠ k) : lookupKey (eraseKey m k) k' = lookupKey m k' := by
  induction m with
  | nil => rfl
  | cons kv rest ih =>
    rcases eq_or_ne kv.1 k with hk | hk
    · have hne : kv.1 ≠ k' := by rw [hk]; exact fun hc => h hc.symm
      have he : eraseKey (kv :: rest) k = eraseKey rest k := by
        simp [eraseKey, List.filter_cons, hk]
      rw [he, ih, lookupKey_cons, if_neg hne]
    · have he : eraseKey (kv :: rest) k = kv :: eraseKey rest k := by
        simp [eraseKey, List.filter_cons, hk]
      rw [he, lookupKey_cons, lookupKey_cons, ih]

theorem containsKey_eraseKey_self {T : Type} (m : List (FlowKey × T)) (k : FlowKey) :
    containsKey (eraseKey m k) k = false := by
  simp [containsKey, lookupKey_eraseKey_self]

theorem containsKey_eraseKey_mono {T : Type} (m : List (FlowKey × T)) {k k' : FlowKey}
    (h : containsKey (eraseKey m k) k' = true) : containsKey m k' = true := by
  rcases eq_or_ne k' k with rfl | hne
  · rw [containsKey_eraseKey_self] at h; exact absurd h (by simp)
  · rwa [containsKey, lookupKey_eraseKey_ne m hne] at h

theorem lookupKey_updateKey_self {T : Type} (m : List (FlowKey × T)) (k : FlowKey)
    (v : T) (h : containsKey m k = true) :
    lookupKey (updateKey m k v) k = some v := by
  induction m with
  | nil => simp [containsKey, lookupKey] at h
  | cons kv rest ih =>
    by_cases hk : kv.1 = k
    · simp [updateKey, lookupKey, hk]
    · have h' : containsKey rest k = true := by
        simpa [containsKey, lookupKey, hk] using h
      simpa [updateKey, lookupKey, hk] using ih h'

theorem updateKey_cons {T : Type} (kv : FlowKey × T) (rest : List (FlowKey × T))
    (k : FlowKey) (v : T) :
    updateKey (kv :: rest) k v =
      (if kv.1 = k then (k, v) else kv) :: updateKey rest k v := rfl

theorem lookupKey_updateKey_ne {T : Type} (m : List (FlowKey × T)) {k k' : FlowKey}
    (v : T) (h : k' ≠ k) : lookupKey (updateKey m k v) k' = lookupKey m k' := by
  induction m with
  | nil => rfl
  | cons kv rest ih =>
    rw [updateKey_cons]
    by_cases hk : kv.1 = k
    · have hne : k ≠ k' := fun hc => h hc.symm
      rw [if_pos hk, lookupKey_cons, lookupKey_cons]
      simp only [if_neg hne, if_neg (show kv.1 ≠ k' by rw [hk]; exact hne)]
      exact ih
    · rw [if_neg hk, lookupKey_cons, lookupKey_cons, ih]

theorem containsKey_updateKey {T : Type} (m : List (FlowKey × T)) (k k' : FlowKey)
    (v : T) : containsKey (updateKey m k v) k' = containsKey m k' := by
  rcases eq_or_ne k' k with rfl | hne
  · induction m with
    | nil => rfl
    | cons kv rest ih =>
      by_cases hk : kv.1 = k'
      · simp [updateKey, containsKey, lookupKey, hk]
      · simpa [updateKey, containsKey, lookupKey, hk] using ih
  · simp [containsKey, lookupKey_updateKey_ne m v hne]

theorem lookupKey_append_single {T : Type} (m : List (FlowKey × T)) (k : FlowKey)
    (v : T) (h : containsKey m k = false) :
    lookupKey (m ++ [(k, v)]) k = some v := by
  induction m with
  | nil => simp [lookupKey]
  | cons kv rest ih =>
    have hk : kv.1 ≠ k := by
      intro hc
      simp [containsKey, lookupKey, hc] at h
    have h' : containsKey rest k = false := by
      simpa [containsKey, lookupKey_cons, hk] using h
    rw [List.cons_append, lookupKey_cons, if_neg hk]
    exact ih h'

theorem lookupKey_append_single_ne {T : Type} (m : List (FlowKey × T))
    {k k' : FlowKey} (v : T) (h : k' ≠ k) :
    lookupKey (m ++ [(k, v)]) k' = lookupKey m k' := by
  induction m with
  | nil =>
    show (if k = k' then some v else none) = none
    rw [if_neg (fun hc => h hc.symm)]
  | cons kv rest ih =>
    rw [List.cons_append, lookupKey_cons, lookupKey_cons, ih]

theorem lookupKey_insertKey_self {T : Type} (m : List (FlowKey × T)) (k : FlowKey)
    (v : T) : lookupKey (insertKey m k v) k = some v := by
  unfold insertKey
  by_cases h : containsKey m k = true
  · rw [if_pos h]
    exact lookupKey_updateKey_self m k v h
  · have h' : containsKey m k = false := by
      simpa using h
    rw [h']
    show lookupKey (m ++ [(k, v)]) k = some v
    exact lookupKey_append_single m k v h'

theorem lookupKey_insertKey_ne {T : Type} (m : List (FlowKey × T)) {k k' : FlowKey}
    (v : T) (h : k' ≠ k) : lookupKey (insertKey m k v) k' = lookupKey m k' := by
  unfold insertKey
  by_cases hc : containsKey m k = true
  · rw [if_pos hc]
    exact lookupKey_updateKey_ne m v h
  · have h' : containsKey m k = false := by simpa using hc
    rw [h']
    show lookupKey (m ++ [(k, v)]) k' = lookupKey m k'
    exact lookupKey_append_single_ne m v h

theorem containsKey_insertKey {T : Type} (m : List (FlowKey × T)) (k k' : FlowKey)
    (v : T) : containsKey (insertKey m k v) k' = (decide (k' = k) || containsKey m k') := by
  rcases eq_or_ne k' k with rfl | hne
  · simp [containsKey, lookupKey_insertKey_self]
  · simp [containsKey, lookupKey_insertKey_ne m v hne, hne]

/-! ### `export_flow` and the expiration sweep -/

theorem sameConfig_refl {T : Type} (s : FlowTable T) : sameConfig s s :=
  ⟨rfl, rfl, rfl, rfl⟩

theorem sameConfig_trans {T : Type} {s s' s'' : FlowTable T}
    (h : sameConfig s s') (h' : sameConfig s' s'') : sameConfig s s'' :=
  ⟨h'.1.trans h.1, h'.2.1.trans h.2.1, h'.2.2.1.trans h.2.2.1, h'.2.2.2.trans h.2.2.2⟩

theorem export_flow_open {T : Type} (s : FlowTable T) (f : T)
    (h : s.chanOpen = true) :
    s.export_flow f = { s with delivered := s.delivered ++ [f] } := by
  simp [FlowTable.export_flow, h]

theorem export_flow_closed {T : Type} (s : FlowTable T) (f : T)
    (h : s.chanOpen = false) :
    s.export_flow f = { s with errorLog := s.errorLog + 1 } := by
  simp [FlowTable.export_flow, h]

theorem export_flow_flow_map {T : Type} (s : FlowTable T) (f : T) :
    (s.export_flow f).flow_map = s.flow_map := by
  unfold FlowTable.export_flow; split <;> rfl

theorem export_flow_next {T : Type} (s : FlowTable T) (f : T) :
    (s.export_flow f).next_check_time = s.next_check_time := by
  unfold FlowTable.export_flow; split <;> rfl

theorem export_flow_sameConfig {T : Type} (s : FlowTable T) (f : T) :
    sameConfig s (s.export_flow f) := by
  unfold FlowTable.export_flow; split <;> exact ⟨rfl, rfl, rfl, rfl⟩

theorem expire_step_sameConfig {T : Type} (s : FlowTable T) (k : FlowKey) :
    sameConfig s (s.expire_step k) := by
  unfold FlowTable.expire_step
  split
  · exact sameConfig_trans (sameConfig_refl _) (export_flow_sameConfig _ _)
  · exact sameConfig_refl s

theorem expire_step_next {T : Type} (s : FlowTable T) (k : FlowKey) :
    (s.expire_step k).next_check_time = s.next_check_time := by
  unfold FlowTable.expire_step
  split
  · rw [export_flow_next]
  · rfl

theorem expire_step_contains_mono {T : Type} (s : FlowTable T) (k k' : FlowKey)
    (h : containsKey (s.expire_step k).flow_map k' = true) :
    containsKey s.flow_map k' = true := by
  unfold FlowTable.expire_step at h
  revert h
  split
  · rw [export_flow_flow_map]
    exact containsKey_eraseKey_mono _
  · exact id

theorem foldl_expire_step_sameConfig {T : Type} (ks : List FlowKey)
    (s : FlowTable T) : sameConfig s (ks.foldl FlowTable.expire_step s) := by
  induction ks generalizing s with
  | nil => exact sameConfig_refl s
  | cons k ks ih =>
    rw [List.foldl_cons]
    exact sameConfig_trans (expire_step_sameConfig s k) (ih _)

theorem foldl_expire_step_next {T : Type} (ks : List FlowKey) (s : FlowTable T) :
    (ks.foldl FlowTable.expire_step s).next_check_time = s.next_check_time := by
  induction ks generalizing s with
  | nil => rfl
  | cons k ks ih => rw [List.foldl_cons, ih, expire_step_next]

theorem foldl_expire_step_contains_mono {T : Type} (ks : List FlowKey)
    (s : FlowTable T) (k' : FlowKey)
    (h : containsKey ((ks.foldl FlowTable.expire_step s)).flow_map k' = true) :
    containsKey s.flow_map k' = true := by
  induction ks generalizing s with
  | nil => exact h
  | cons k ks ih =>
    rw [List.foldl_cons] at h
    exact expire_step_contains_mono s k k' (ih _ h)

theorem export_expired_flows_sameConfig {T : Type} [Flow T] (s : FlowTable T)
    (now : Time) : sameConfig s (s.export_expired_flows now) :=
  foldl_expire_step_sameConfig _ s

theorem export_expired_flows_next {T : Type} [Flow T] (s : FlowTable T)
    (now : Time) :
    (s.export_expired_flows now).next_check_time = s.next_check_time :=
  foldl_expire_step_next _ s

theorem export_expired_flows_contains_mono {T : Type} [Flow T] (s : FlowTable T)
    (now : Time) (k' : FlowKey)
    (h : containsKey (s.export_expired_flows now).flow_map k' = true) :
    containsKey s.flow_map k' = true :=
  foldl_expire_step_contains_mono _ s k' h

theorem lookupKey_isSome_of_mem {T : Type} {m : List (FlowKey × T)}
    {kv : FlowKey × T} (h : kv ∈ m) : (lookupKey m kv.1).isSome = true := by
  induction m with
  | nil => simp at h
  | cons hd rest ih =>
    rcases List.mem_cons.mp h with rfl | h'
    · simp [lookupKey_cons]
    · rw [lookupKey_cons]
      by_cases hk : hd.1 = kv.1
      · simp [hk]
      · simpa [hk] using ih h'

theorem lookupKey_of_mem_nodup {T : Type} {m : List (FlowKey × T)}
    {kv : FlowKey × T} (hnd : NodupKeys m) (h : kv ∈ m) :
    lookupKey m kv.1 = some kv.2 := by
  induction m with
  | nil => simp at h
  | cons hd rest ih =>
    have hnd' : NodupKeys rest := by
      have := (List.nodup_cons.mp hnd).2
      exact this
    rcases List.mem_cons.mp h with rfl | h'
    · simp [lookupKey_cons]
    · have hne : hd.1 ≠ kv.1 := by
        intro hc
        have : hd.1 ∈ rest.map (fun kv => kv.1) := by
          rw [hc]
          exact List.mem_map.mpr ⟨kv, h', rfl⟩
        exact (List.nodup_cons.mp hnd).1 this
      rw [lookupKey_cons, if_neg hne]
      exact ih hnd' h'

theorem foldl_eraseKey_eq_filter {T : Type} (ks : List FlowKey)
    (m : List (FlowKey × T)) :
    ks.foldl eraseKey m = m.filter (fun kv => !decide (kv.1 ∈ ks)) := by
  induction ks generalizing m with
  | nil => simp
  | cons k ks ih =>
    rw [List.foldl_cons]
    show ks.foldl eraseKey (eraseKey m k) = _
    rw [ih]
    unfold eraseKey
    rw [List.filter_filter]
    apply List.filter_congr
    intro kv _
    by_cases h1 : kv.1 ∈ ks <;> by_cases h2 : kv.1 = k <;>
      simp [h1, h2, List.mem_cons]

theorem nodup_key_inj {T : Type} {m : List (FlowKey × T)} {kv kv' : FlowKey × T}
    (hnd : NodupKeys m) (h : kv ∈ m) (h' : kv' ∈ m) (hk : kv.1 = kv'.1) :
    kv = kv' := by
  have h1 := lookupKey_of_mem_nodup hnd h
  have h2 := lookupKey_of_mem_nodup hnd h'
  rw [hk, h2] at h1
  cases kv; cases kv'
  simp only at hk
  simp only [Option.some.injEq] at h1
  rw [hk, h1]

/-- The key list collected in phase one of the sweep describes a member of
the map exactly when that member is expired (for duplicate-free keys). -/
theorem mem_keys_filter {T : Type} {m : List (FlowKey × T)} {P : FlowKey × T → Bool}
    {kv : FlowKey × T} (hnd : NodupKeys m) (hkv : kv ∈ m) :
    (kv.1 ∈ (m.filter P).map (fun kv => kv.1)) ↔ P kv = true := by
  constructor
  · intro hin
    obtain ⟨kv', hkv', hkeq⟩ := List.mem_map.mp hin
    have hkv'm : kv' ∈ m := List.mem_of_mem_filter hkv'
    have heq : kv' = kv := nodup_key_inj hnd hkv'm hkv hkeq
    rw [← heq]
    exact List.of_mem_filter hkv'
  · intro hp
    exact List.mem_map.mpr ⟨kv, List.mem_filter.mpr ⟨hkv, hp⟩, rfl⟩

/-- The removal loop of the sweep, run over any duplicate-free list of keys
present in the map, with an open channel: it erases exactly those keys and
delivers exactly their flows, in order. -/
theorem foldl_expire_step_spec {T : Type} (ks : List FlowKey) (s : FlowTable T)
    (hnd : ks.Nodup) (hopen : s.chanOpen = true)
    (hmem : ∀ k ∈ ks, (lookupKey s.flow_map k).isSome = true) :
    ks.foldl FlowTable.expire_step s =
      { s with
        flow_map := ks.foldl eraseKey s.flow_map,
        delivered := s.delivered ++
          ks.filterMap (fun k => lookupKey s.flow_map k) } := by
  induction ks generalizing s with
  | nil => simp
  | cons k ks ih =>
    obtain ⟨f, hf⟩ : ∃ f, lookupKey s.flow_map k = some f := by
      have h := hmem k (List.mem_cons_self k ks)
      cases hlk : lookupKey s.flow_map k with
      | none => rw [hlk] at h; simp at h
      | some f => exact ⟨f, rfl⟩
    have hstep : s.expire_step k =
        { s with flow_map := eraseKey s.flow_map k,
                 delivered := s.delivered ++ [f] } := by
      unfold FlowTable.expire_step
      simp only [hf]
      exact export_flow_open _ _ hopen
    have hkn : k ∉ ks := (List.nodup_cons.mp hnd).1
    have hnd' : ks.Nodup := (List.nodup_cons.mp hnd).2
    have hlk : ∀ k' ∈ ks,
        lookupKey (eraseKey s.flow_map k) k' = lookupKey s.flow_map k' := by
      intro k' hk'
      have hne : k' ≠ k := fun hc => hkn (hc ▸ hk')
      exact lookupKey_eraseKey_ne _ hne
    have hmem' : ∀ k' ∈ ks,
        (lookupKey (eraseKey s.flow_map k) k').isSome = true := by
      intro k' hk'
      rw [hlk k' hk']
      exact hmem k' (List.mem_cons_of_mem k hk')
    rw [List.foldl_cons, hstep]
    have hrec := ih { s with flow_map := eraseKey s.flow_map k, delivered := s.delivered ++ [f] } hnd' hopen hmem'
    rw [hrec]
    simp only [List.foldl_cons, List.filterMap_cons, hf, List.filterMap_congr hlk,
      List.append_assoc, List.singleton_append]

/-- The specification of `export_expired_flows`: the two-phase sweep removes
from the map exactly the flows that are expired at `now` (leaving everything
else in place), sends each of them once on the channel (in map order), and
touches nothing else. -/
theorem export_expired_flows_spec {T : Type} [Flow T] (s : FlowTable T)
    (now : Time) (hopen : s.chanOpen = true) (hnd : NodupKeys s.flow_map) :
    s.export_expired_flows now =
      { s with
        flow_map := s.flow_map.filter
          (fun kv => !(Flow.is_expired kv.2 now s.active_timeout s.idle_timeout)),
        delivered := s.delivered ++
          (s.flow_map.filter
            (fun kv => Flow.is_expired kv.2 now s.active_timeout s.idle_timeout)).map
            (fun kv => kv.2) } := by
  unfold FlowTable.export_expired_flows
  have hsub : ((s.flow_map.filter
      (fun kv => Flow.is_expired kv.2 now s.active_timeout s.idle_timeout)).map
      (fun kv => kv.1)).Sublist (s.flow_map.map (fun kv => kv.1)) :=
    (List.filter_sublist s.flow_map).map _
  have hksnd := hsub.nodup hnd
  have hmem : ∀ k ∈ (s.flow_map.filter
      (fun kv => Flow.is_expired kv.2 now s.active_timeout s.idle_timeout)).map
      (fun kv => kv.1), (lookupKey s.flow_map k).isSome = true := by
    intro k hk
    obtain ⟨kv, hkv, rfl⟩ := List.mem_map.mp hk
    exact lookupKey_isSome_of_mem (List.mem_of_mem_filter hkv)
  rw [foldl_expire_step_spec _ s hksnd hopen hmem]
  have hmap : (((s.flow_map.filter
      (fun kv => Flow.is_expired kv.2 now s.active_timeout s.idle_timeout)).map
      (fun kv => kv.1)).foldl eraseKey s.flow_map) =
      s.flow_map.filter
        (fun kv => !(Flow.is_expired kv.2 now s.active_timeout s.idle_timeout)) := by
    rw [foldl_eraseKey_eq_filter]
    apply List.filter_congr
    intro kv hkv
    have hiff := @mem_keys_filter T s.flow_map
      (fun kv => Flow.is_expired kv.2 now s.active_timeout s.idle_timeout) kv hnd hkv
    by_cases hp : Flow.is_expired kv.2 now s.active_timeout s.idle_timeout = true
    · have hin := hiff.mpr hp
      simp [hin, hp]
    · have hnin : kv.1 ∉ (s.flow_map.filter
          (fun kv => Flow.is_expired kv.2 now s.active_timeout s.idle_timeout)).map
          (fun kv => kv.1) := fun hin => hp (hiff.mp hin)
      simp only [Bool.not_eq_true] at hp
      simp [hnin, hp]
  have hdel : (((s.flow_map.filter
      (fun kv => Flow.is_expired kv.2 now s.active_timeout s.idle_timeout)).map
      (fun kv => kv.1)).filterMap (fun k => lookupKey s.flow_map k)) =
      (s.flow_map.filter
        (fun kv => Flow.is_expired kv.2 now s.active_timeout s.idle_timeout)).map
        (fun kv => kv.2) := by
    rw [List.filterMap_map]
    have hcong : ∀ kv ∈ s.flow_map.filter
        (fun kv => Flow.is_expired kv.2 now s.active_timeout s.idle_timeout),
        ((fun k => lookupKey s.flow_map k) ∘ (fun kv => kv.1)) kv =
          (some ∘ (fun kv => kv.2)) kv := by
      intro kv hkv
      exact lookupKey_of_mem_nodup hnd (List.mem_of_mem_filter hkv)
    rw [List.filterMap_congr hcong, List.filterMap_eq_map]
  rw [hmap, hdel]

/-! ### The sweep phase and the body of `process_packet` -/

theorem sweepPhase_sameConfig {T : Type} [Flow T] (s : FlowTable T)
    (p : PacketFeatures) : sameConfig s (sweepPhase s p) := by
  unfold sweepPhase
  split
  · exact sameConfig_trans (export_expired_flows_sameConfig s p.timestamp)
      ⟨rfl, rfl, rfl, rfl⟩
  · exact sameConfig_refl s

theorem sweepPhase_next {T : Type} [Flow T] (s : FlowTable T) (p : PacketFeatures) :
    (sweepPhase s p).next_check_time =
      if sweepRuns s p then some (p.timestamp + EXPIRATION_CHECK_INTERVAL)
      else s.next_check_time := by
  unfold sweepPhase
  by_cases h : sweepRuns s p <;> simp [h]

theorem sweepPhase_contains_mono {T : Type} [Flow T] (s : FlowTable T)
    (p : PacketFeatures) (k : FlowKey)
    (h : containsKey (sweepPhase s p).flow_map k = true) :
    containsKey s.flow_map k = true := by
  unfold sweepPhase at h
  revert h
  split
  · exact export_expired_flows_contains_mono s p.timestamp k
  · exact id

theorem processBody_none {T : Type} [Flow T] (s : FlowTable T) (p : PacketFeatures)
    (hlk : lookupKey s.flow_map (resolvedKey s.flow_map p) = none) :
    processBody s p =
      { s with flow_map := (insertKey s.flow_map (resolvedKey s.flow_map p)
          (Flow.new (resolvedKey s.flow_map p) p.source_ip p.source_port
            p.destination_ip p.destination_port p.protocol p.timestamp)) } := by
  unfold processBody
  simp only [hlk]

theorem processBody_expired {T : Type} [Flow T] (s : FlowTable T)
    (p : PacketFeatures) (flow : T)
    (hlk : lookupKey s.flow_map (resolvedKey s.flow_map p) = some flow)
    (hexp : Flow.is_expired flow p.timestamp s.active_timeout s.idle_timeout = true) :
    processBody s p =
      { s.export_flow flow with
        flow_map := (insertKey (eraseKey s.flow_map (resolvedKey s.flow_map p)) p.flow_key
          (Flow.new p.flow_key p.source_ip p.source_port p.destination_ip
            p.destination_port p.protocol p.timestamp)) } := by
  unfold processBody
  simp only [hlk, hexp, if_true]
  cases hch : s.chanOpen <;>
    simp [FlowTable.export_flow, hch, export_flow_flow_map]

theorem processBody_terminated {T : Type} [Flow T] (s : FlowTable T)
    (p : PacketFeatures) (flow fl2 : T)
    (hlk : lookupKey s.flow_map (resolvedKey s.flow_map p) = some flow)
    (hexp : Flow.is_expired flow p.timestamp s.active_timeout s.idle_timeout = false)
    (hupd : Flow.update_flow flow p
      (decide (resolvedKey s.flow_map p = p.flow_key)) = (fl2, true)) :
    processBody s p =
      FlowTable.export_flow
        { s with flow_map :=
            (eraseKey (updateKey s.flow_map (resolvedKey s.flow_map p) fl2)
              (resolvedKey s.flow_map p)) } fl2 := by
  unfold processBody
  simp only [hlk, hexp, hupd, Bool.false_eq_true, if_false, if_true]

theorem processBody_update {T : Type} [Flow T] (s : FlowTable T)
    (p : PacketFeatures) (flow fl2 : T)
    (hlk : lookupKey s.flow_map (resolvedKey s.flow_map p) = some flow)
    (hexp : Flow.is_expired flow p.timestamp s.active_timeout s.idle_timeout = false)
    (hupd : Flow.update_flow flow p
      (decide (resolvedKey s.flow_map p = p.flow_key)) = (fl2, false)) :
    processBody s p =
      match s.early_export with
      | some early_export =>
        if asU64 (num_seconds (p.timestamp - Flow.get_first_timestamp fl2)) > early_export
        then FlowTable.export_flow
          { s with flow_map := updateKey s.flow_map (resolvedKey s.flow_map p) fl2 } fl2
        else { s with flow_map := updateKey s.flow_map (resolvedKey s.flow_map p) fl2 }
      | none => { s with flow_map := updateKey s.flow_map (resolvedKey s.flow_map p) fl2 } := by
  unfold processBody
  simp only [hlk, hexp, hupd, Bool.false_eq_true, if_false]

theorem processBody_next {T : Type} [Flow T] (s : FlowTable T) (p : PacketFeatures) :
    (processBody s p).next_check_time = s.next_check_time := by
  rcases hlk : lookupKey s.flow_map (resolvedKey s.flow_map p) with _ | flow
  · rw [processBody_none s p hlk]
  · by_cases hexp : Flow.is_expired flow p.timestamp s.active_timeout s.idle_timeout = true
    · rw [processBody_expired s p flow hlk hexp]
      simp [export_flow_next]
    · have hexp' : Flow.is_expired flow p.timestamp s.active_timeout s.idle_timeout = false := by
        simpa using hexp
      rcases hupd : Flow.update_flow flow p
        (decide (resolvedKey s.flow_map p = p.flow_key)) with ⟨fl2, term⟩
      cases term
      · rw [processBody_update s p flow fl2 hlk hexp' hupd]
        rcases he : s.early_export with _ | e
        · rfl
        · dsimp only
          split
          · simp [export_flow_next]
          · rfl
      · rw [processBody_terminated s p flow fl2 hlk hexp' hupd]
        simp [export_flow_next]

/-! ### Dynamics of the next-check timestamp -/

theorem optLE_refl (o : Option Time) : optLE o o := by
  cases o with
  | none => trivial
  | some a => exact le_refl a

theorem optLE_trans {a b c : Option Time} (h1 : optLE a b) (h2 : optLE b c) :
    optLE a c := by
  cases a with
  | none => trivial
  | some x =>
    cases b with
    | none => exact absurd h1 (by simp [optLE])
    | some y =>
      cases c with
      | none => exact absurd h2 (by simp [optLE])
      | some z => exact le_trans (α := Int) h1 h2

theorem process_packet_next {T : Type} [Flow T] (s : FlowTable T)
    (p : PacketFeatures) :
    (s.process_packet p).next_check_time =
      if sweepRuns s p then some (p.timestamp + EXPIRATION_CHECK_INTERVAL)
      else s.next_check_time := by
  unfold FlowTable.process_packet
  rw [processBody_next, sweepPhase_next]

theorem process_packet_next_mono {T : Type} [Flow T] (s : FlowTable T)
    (p : PacketFeatures) :
    optLE s.next_check_time (s.process_packet p).next_check_time := by
  rw [process_packet_next]
  by_cases h : sweepRuns s p = true
  · rw [if_pos h]
    cases hn : s.next_check_time with
    | none => trivial
    | some nc =>
      have hts : nc ≤ p.timestamp := by
        unfold sweepRuns at h
        rw [hn] at h
        exact of_decide_eq_true h
      show nc ≤ p.timestamp + EXPIRATION_CHECK_INTERVAL
      have : (0 : Int) ≤ EXPIRATION_CHECK_INTERVAL := by norm_num [EXPIRATION_CHECK_INTERVAL]
      linarith
  · rw [if_neg h]
    exact optLE_refl _

theorem process_all_next_mono {T : Type} [Flow T] (s : FlowTable T)
    (ps : List PacketFeatures) :
    optLE s.next_check_time (process_all s ps).next_check_time := by
  induction ps generalizing s with
  | nil => exact optLE_refl _
  | cons p ps ih =>
    show optLE s.next_check_time (process_all (s.process_packet p) ps).next_check_time
    exact optLE_trans (process_packet_next_mono s p) (ih _)

/-- Any two packets that both open the expiration gate are at least one full
check interval apart in event time, whatever happens in between. -/
theorem sweep_separation {T : Type} [Flow T] (s : FlowTable T)
    (p q : PacketFeatures) (ps : List PacketFeatures)
    (h1 : sweepRuns s p = true)
    (h2 : sweepRuns (process_all (s.process_packet p) ps) q = true) :
    p.timestamp + EXPIRATION_CHECK_INTERVAL ≤ q.timestamp := by
  have hnext : (s.process_packet p).next_check_time =
      some (p.timestamp + EXPIRATION_CHECK_INTERVAL) := by
    rw [process_packet_next, if_pos h1]
  have hmono := process_all_next_mono (s.process_packet p) ps
  rw [hnext] at hmono
  cases hq : (process_all (s.process_packet p) ps).next_check_time with
  | none => rw [hq] at hmono; exact absurd hmono (by simp [optLE])
  | some v =>
    rw [hq] at hmono
    have hle : p.timestamp + EXPIRATION_CHECK_INTERVAL ≤ v := hmono
    unfold sweepRuns at h2
    rw [hq] at h2
    have hv : v ≤ q.timestamp := of_decide_eq_true h2
    linarith

/-! ### The at-most-one-entry invariant -/

theorem goodMap_of_contains_mono {T : Type} {m m' : List (FlowKey × T)}
    (hsub : ∀ k, containsKey m' k = true → containsKey m k = true)
    (h : goodMap m) : goodMap m' :=
  fun k h1 h2 => h k (hsub _ h1) (hsub _ h2)

theorem goodMap_insert {T : Type} {m : List (FlowKey × T)} (h : goodMap m)
    {k : FlowKey} (v : T)
    (hsw : containsKey m (keySwap k) = false ∨ keySwap k = k) :
    goodMap (insertKey m k v) := by
  intro k' h1 h2
  rw [containsKey_insertKey] at h1 h2
  have h1' : k' = k ∨ containsKey m k' = true := by
    rcases Bool.or_eq_true_iff.mp h1 with h' | h'
    · exact Or.inl (of_decide_eq_true h')
    · exact Or.inr h'
  have h2' : keySwap k' = k ∨ containsKey m (keySwap k') = true := by
    rcases Bool.or_eq_true_iff.mp h2 with h' | h'
    · exact Or.inl (of_decide_eq_true h')
    · exact Or.inr h'
  rcases h1' with rfl | hk'
  · rcases h2' with he | hc
    · exact he
    · rcases hsw with hf | he
      · rw [hc] at hf; cases hf
      · exact he
  · rcases h2' with he | hc
    · have hk'' : k' = keySwap k := by rw [← he, keySwap_keySwap]
      rcases hsw with hf | hesw
      · rw [hk''] at hk'; rw [hk'] at hf; cases hf
      · rw [hk'', keySwap_keySwap]
        exact hesw.symm
    · exact h k' hk' hc

theorem goodMap_processBody {T : Type} [Flow T] (s : FlowTable T)
    (p : PacketFeatures) (h : goodMap s.flow_map) :
    goodMap (processBody s p).flow_map := by
  rcases hlk : lookupKey s.flow_map (resolvedKey s.flow_map p) with _ | flow
  · -- no existing flow: necessarily inserting the forward key, and the
    -- backward key is absent
    have hbwd : containsKey s.flow_map p.flow_key_bwd = false := by
      by_cases hb : containsKey s.flow_map p.flow_key_bwd = true
      · unfold resolvedKey at hlk
        rw [if_pos hb] at hlk
        rw [containsKey, hlk] at hb
        simp at hb
      · simpa using hb
    have hrk : resolvedKey s.flow_map p = p.flow_key := by
      unfold resolvedKey
      rw [hbwd]
      simp
    rw [processBody_none s p hlk]
    show goodMap (insertKey s.flow_map (resolvedKey s.flow_map p)
      (Flow.new (resolvedKey s.flow_map p) p.source_ip p.source_port
        p.destination_ip p.destination_port p.protocol p.timestamp))
    rw [hrk]
    apply goodMap_insert h
    left
    rw [← flow_key_bwd_eq_swap]
    exact hbwd
  · by_cases hexp : Flow.is_expired flow p.timestamp s.active_timeout s.idle_timeout = true
    · -- expiry replacement: erase the resolved key, insert the forward key
      rw [processBody_expired s p flow hlk hexp]
      show goodMap (insertKey (eraseKey s.flow_map (resolvedKey s.flow_map p)) p.flow_key
        (Flow.new p.flow_key p.source_ip p.source_port p.destination_ip
          p.destination_port p.protocol p.timestamp))
      have herased : goodMap (eraseKey s.flow_map (resolvedKey s.flow_map p)) :=
        goodMap_of_contains_mono (fun k => containsKey_eraseKey_mono _) h
      apply goodMap_insert herased
      left
      rw [← flow_key_bwd_eq_swap]
      by_cases hb : containsKey s.flow_map p.flow_key_bwd = true
      · have hrk : resolvedKey s.flow_map p = p.flow_key_bwd := by
          unfold resolvedKey
          rw [if_pos hb]
        rw [hrk]
        exact containsKey_eraseKey_self _ _
      · by_cases hbe : containsKey (eraseKey s.flow_map (resolvedKey s.flow_map p)) p.flow_key_bwd = true
        · exact absurd (containsKey_eraseKey_mono _ hbe) hb
        · simpa using hbe
    · have hexp' : Flow.is_expired flow p.timestamp s.active_timeout s.idle_timeout = false := by
        simpa using hexp
      rcases hupd : Flow.update_flow flow p
        (decide (resolvedKey s.flow_map p = p.flow_key)) with ⟨fl2, term⟩
      have hupdmap : goodMap (updateKey s.flow_map (resolvedKey s.flow_map p) fl2) :=
        goodMap_of_contains_mono
          (fun k hk => by rwa [containsKey_updateKey] at hk) h
      cases term
      · -- live update, no termination: the key set is unchanged
        rw [processBody_update s p flow fl2 hlk hexp' hupd]
        rcases he : s.early_export with _ | e
        · exact hupdmap
        · dsimp only
          split
          · show goodMap (FlowTable.export_flow _ fl2).flow_map
            rw [export_flow_flow_map]
            exact hupdmap
          · exact hupdmap
      · -- terminated: the resolved key is erased after the in-place update
        rw [processBody_terminated s p flow fl2 hlk hexp' hupd]
        show goodMap (FlowTable.export_flow _ fl2).flow_map
        rw [export_flow_flow_map]
        exact goodMap_of_contains_mono (fun k => containsKey_eraseKey_mono _) hupdmap

theorem goodMap_process_packet {T : Type} [Flow T] (s : FlowTable T)
    (p : PacketFeatures) (h : goodMap s.flow_map) :
    goodMap (s.process_packet p).flow_map := by
  unfold FlowTable.process_packet
  apply goodMap_processBody
  exact goodMap_of_contains_mono (sweepPhase_contains_mono s p) h

theorem goodMap_process_all {T : Type} [Flow T] (s : FlowTable T)
    (ps : List PacketFeatures) (h : goodMap s.flow_map) :
    goodMap (process_all s ps).flow_map := by
  induction ps generalizing s with
  | nil => exact h
  | cons p ps ih =>
    show goodMap (process_all (s.process_packet p) ps).flow_map
    exact ih _ (goodMap_process_packet s p h)

/-! ### Shutdown flush -/

theorem foldl_export_flow_open {T : Type} (flows : List T) (s : FlowTable T)
    (hopen : s.chanOpen = true) :
    flows.foldl FlowTable.export_flow s =
      { s with delivered := s.delivered ++ flows } := by
  induction flows generalizing s with
  | nil => simp
  | cons f fs ih =>
    rw [List.foldl_cons, export_flow_open s f hopen]
    rw [ih { s with delivered := s.delivered ++ [f] } hopen]
    simp

/-- `export_flow` applied to a state whose map was just modified, with an
open channel. -/
theorem export_flow_set_map_open {T : Type} (s : FlowTable T)
    (m : List (FlowKey × T)) (f : T) (hopen : s.chanOpen = true) :
    FlowTable.export_flow { s with flow_map := m } f =
      { s with flow_map := m, delivered := s.delivered ++ [f] } :=
  export_flow_open { s with flow_map := m } f hopen

/-! ### The claims -/

/-- C1: the claim states that under C-representation layout rules
`EbpfEventIpv4` occupies exactly 24 bytes and `EbpfEventIpv6` exactly 48 —
as the doc comments in `common/src/lib.rs` also assert.  In fact the declared
fields of the IPv4 record sum to 28 bytes of payload alone and lay out to 32
bytes under `#[repr(C)]`; the IPv6 fields sum to 64 bytes and lay out to 80
bytes (72 under the older `u128` alignment of 8).  So the code contradicts
its own documented size contract; this theorem evaluates the layout at the
declared field lists. -/
theorem claim_C1 :
    layoutSize EbpfEventIpv4_fields = 32 ∧
    sizeSum EbpfEventIpv4_fields = 28 ∧
    layoutSize EbpfEventIpv6_fields = 80 ∧
    layoutSize EbpfEventIpv6_fields_align8 = 72 ∧
    sizeSum EbpfEventIpv6_fields = 64 ∧
    ¬(layoutSize EbpfEventIpv4_fields = 24 ∧ layoutSize EbpfEventIpv6_fields = 48) ∧
    ¬(layoutSize EbpfEventIpv4_fields = 24 ∧ layoutSize EbpfEventIpv6_fields_align8 = 48) := by
  decide

/-- C2: the expiration sweep runs exactly when `next_check_time` is unset or
the packet timestamp has reached it; whenever it runs, `next_check_time` is
set to the packet timestamp plus 60 seconds; `next_check_time` never
decreases across `process_packet` calls; and any two packets that trigger the
sweep are at least 60 event-seconds apart — so the sweep runs at most once
per 60 seconds of event time, regardless of packet count (proved without
even needing the strictly-increasing/spacing hypotheses of the claim). -/
theorem claim_C2 {T : Type} [Flow T] :
    (∀ (s : FlowTable T) (p : PacketFeatures),
      sweepPhase s p =
        if sweepRuns s p then
          { s.export_expired_flows p.timestamp with
            next_check_time := some (p.timestamp + EXPIRATION_CHECK_INTERVAL) }
        else s) ∧
    (∀ (s : FlowTable T) (p : PacketFeatures),
      (s.process_packet p).next_check_time =
        if sweepRuns s p then some (p.timestamp + EXPIRATION_CHECK_INTERVAL)
        else s.next_check_time) ∧
    (∀ (s : FlowTable T) (p : PacketFeatures),
      optLE s.next_check_time (s.process_packet p).next_check_time) ∧
    (∀ (s : FlowTable T) (p q : PacketFeatures) (ps : List PacketFeatures),
      sweepRuns s p = true →
      sweepRuns (process_all (s.process_packet p) ps) q = true →
      p.timestamp + EXPIRATION_CHECK_INTERVAL ≤ q.timestamp) :=
  ⟨fun _ _ => rfl, process_packet_next, process_packet_next_mono, sweep_separation⟩

theorem claim_C2_witness :
    sweepRuns (FlowTable.new ToyFlow 10 10 none true) (tpkt 1 5 2 7 6 0) = true ∧
    sweepRuns (process_all ((FlowTable.new ToyFlow 10 10 none true).process_packet
      (tpkt 1 5 2 7 6 0)) []) (tpkt 1 5 2 7 6 70000) = true ∧
    (tpkt 1 5 2 7 6 0).timestamp + EXPIRATION_CHECK_INTERVAL ≤
      (tpkt 1 5 2 7 6 70000).timestamp :=
  ⟨by decide, by decide,
    (@claim_C2 ToyFlow _).2.2.2 (FlowTable.new ToyFlow 10 10 none true)
      (tpkt 1 5 2 7 6 0) (tpkt 1 5 2 7 6 70000) [] (by decide) (by decide)⟩

/-- C3: starting from an empty table, after any sequence of `process_packet`
calls the map never simultaneously contains both the (distinct) forward and
backward key of an endpoint pair; and within each call the backward key is
checked before defaulting to the forward key.  The claim's assumption that
`flow_key`/`flow_key_bwd` are tuple-swap inverses holds definitionally in the
spec-modelled keys (`flow_key_bwd_eq_swap`). -/
theorem claim_C3 {T : Type} [Flow T] (act idl : Nat) (ee : Option Nat) (ch : Bool)
    (ps : List PacketFeatures) (p : PacketFeatures)
    (hne : p.flow_key ≠ p.flow_key_bwd) :
    (¬(containsKey (process_all (FlowTable.new T act idl ee ch) ps).flow_map
        p.flow_key = true ∧
       containsKey (process_all (FlowTable.new T act idl ee ch) ps).flow_map
        p.flow_key_bwd = true)) ∧
    (∀ (m : List (FlowKey × T)),
      resolvedKey m p =
        if containsKey m p.flow_key_bwd then p.flow_key_bwd else p.flow_key) := by
  constructor
  · rintro ⟨h1, h2⟩
    have hg : goodMap (process_all (FlowTable.new T act idl ee ch) ps).flow_map := by
      apply goodMap_process_all
      intro k hk _
      simp [FlowTable.new, containsKey, lookupKey] at hk
    have hsw := hg p.flow_key h1 (by rw [← flow_key_bwd_eq_swap]; exact h2)
    exact hne ((flow_key_bwd_eq_swap p).trans hsw).symm
  · intro m
    rfl

theorem claim_C3_witness :
    (tpkt 1 5 2 7 6 0).flow_key ≠ (tpkt 1 5 2 7 6 0).flow_key_bwd ∧
    ¬(containsKey (process_all (FlowTable.new ToyFlow 10 10 none true)
        [tpkt 1 5 2 7 6 0]).flow_map (tpkt 1 5 2 7 6 0).flow_key = true ∧
      containsKey (process_all (FlowTable.new ToyFlow 10 10 none true)
        [tpkt 1 5 2 7 6 0]).flow_map (tpkt 1 5 2 7 6 0).flow_key_bwd = true) :=
  ⟨by decide,
    (claim_C3 10 10 none true [tpkt 1 5 2 7 6 0] (tpkt 1 5 2 7 6 0) (by decide)).1⟩

/-- C4: when the resolved key (after the sweep phase of the same call) maps
to a flow that is expired at the packet's timestamp, that flow is removed
from the map and exported, and a brand-new flow built by `Flow.new` from this
packet — with `p.timestamp` passed as its first-seen time — is inserted under
the packet's forward key, even when the packet was resolved via the backward
key. -/
theorem claim_C4 {T : Type} [Flow T] (s : FlowTable T) (p : PacketFeatures)
    (flow : T) (hopen : s.chanOpen = true)
    (hlk : lookupKey (sweepPhase s p).flow_map
      (resolvedKey (sweepPhase s p).flow_map p) = some flow)
    (hexp : Flow.is_expired flow p.timestamp s.active_timeout s.idle_timeout = true) :
    s.process_packet p =
      { sweepPhase s p with
        flow_map := (insertKey
          (eraseKey (sweepPhase s p).flow_map (resolvedKey (sweepPhase s p).flow_map p))
          p.flow_key
          (Flow.new p.flow_key p.source_ip p.source_port p.destination_ip
            p.destination_port p.protocol p.timestamp)),
        delivered := (sweepPhase s p).delivered ++ [flow] } := by
  have hcfg := sweepPhase_sameConfig s p
  have hopen1 : (sweepPhase s p).chanOpen = true := by rw [hcfg.2.2.2]; exact hopen
  have hexp1 : Flow.is_expired flow p.timestamp (sweepPhase s p).active_timeout
      (sweepPhase s p).idle_timeout = true := by
    rw [hcfg.1, hcfg.2.1]; exact hexp
  unfold FlowTable.process_packet
  rw [processBody_expired (sweepPhase s p) p flow hlk hexp1]
  rw [export_flow_open _ _ hopen1]

theorem claim_C4_witness :
    (mkTable [(⟨1, 5, 2, 7, 6⟩, ⟨⟨1, 5, 2, 7, 6⟩, 0, 1⟩)] 1 1 none (some 1000000) true).chanOpen = true ∧
    lookupKey (sweepPhase (mkTable [(⟨1, 5, 2, 7, 6⟩, ⟨⟨1, 5, 2, 7, 6⟩, 0, 1⟩)] 1 1 none (some 1000000) true) (tpkt 2 7 1 5 6 5000)).flow_map
      (resolvedKey (sweepPhase (mkTable [(⟨1, 5, 2, 7, 6⟩, ⟨⟨1, 5, 2, 7, 6⟩, 0, 1⟩)] 1 1 none (some 1000000) true) (tpkt 2 7 1 5 6 5000)).flow_map
        (tpkt 2 7 1 5 6 5000)) = some ⟨⟨1, 5, 2, 7, 6⟩, 0, 1⟩ ∧
    Flow.is_expired (⟨⟨1, 5, 2, 7, 6⟩, 0, 1⟩ : ToyFlow) (tpkt 2 7 1 5 6 5000).timestamp 1 1 = true ∧
    (mkTable [(⟨1, 5, 2, 7, 6⟩, ⟨⟨1, 5, 2, 7, 6⟩, 0, 1⟩)] 1 1 none (some 1000000) true).process_packet (tpkt 2 7 1 5 6 5000) =
      { sweepPhase (mkTable [(⟨1, 5, 2, 7, 6⟩, ⟨⟨1, 5, 2, 7, 6⟩, 0, 1⟩)] 1 1 none (some 1000000) true) (tpkt 2 7 1 5 6 5000) with
        flow_map := (insertKey
          (eraseKey (sweepPhase (mkTable [(⟨1, 5, 2, 7, 6⟩, ⟨⟨1, 5, 2, 7, 6⟩, 0, 1⟩)] 1 1 none (some 1000000) true) (tpkt 2 7 1 5 6 5000)).flow_map
            (resolvedKey (sweepPhase (mkTable [(⟨1, 5, 2, 7, 6⟩, ⟨⟨1, 5, 2, 7, 6⟩, 0, 1⟩)] 1 1 none (some 1000000) true) (tpkt 2 7 1 5 6 5000)).flow_map
              (tpkt 2 7 1 5 6 5000)))
          (tpkt 2 7 1 5 6 5000).flow_key
          (Flow.new (tpkt 2 7 1 5 6 5000).flow_key (tpkt 2 7 1 5 6 5000).source_ip
            (tpkt 2 7 1 5 6 5000).source_port (tpkt 2 7 1 5 6 5000).destination_ip
            (tpkt 2 7 1 5 6 5000).destination_port (tpkt 2 7 1 5 6 5000).protocol
            (tpkt 2 7 1 5 6 5000).timestamp)),
        delivered := (sweepPhase (mkTable [(⟨1, 5, 2, 7, 6⟩, ⟨⟨1, 5, 2, 7, 6⟩, 0, 1⟩)] 1 1 none (some 1000000) true) (tpkt 2 7 1 5 6 5000)).delivered ++
          [⟨⟨1, 5, 2, 7, 6⟩, 0, 1⟩] } :=
  ⟨rfl, by decide, by decide,
    claim_C4 (mkTable [(⟨1, 5, 2, 7, 6⟩, ⟨⟨1, 5, 2, 7, 6⟩, 0, 1⟩)] 1 1 none (some 1000000) true)
      (tpkt 2 7 1 5 6 5000) ⟨⟨1, 5, 2, 7, 6⟩, 0, 1⟩ rfl (by decide) (by decide)⟩

/-- C5: on an existing, non-expired flow, `update_flow` is applied with
`is_forward` true exactly when the resolved key equals the packet's forward
key (visible in the `decide (resolvedKey … = p.flow_key)` argument below);
if it signals termination, the (updated) flow is removed from the map and
exported in the same call, for arbitrary active/idle timeout values. -/
theorem claim_C5 {T : Type} [Flow T] (s : FlowTable T) (p : PacketFeatures)
    (flow fl2 : T) (hopen : s.chanOpen = true)
    (hlk : lookupKey (sweepPhase s p).flow_map
      (resolvedKey (sweepPhase s p).flow_map p) = some flow)
    (hexp : Flow.is_expired flow p.timestamp s.active_timeout s.idle_timeout = false)
    (hupd : Flow.update_flow flow p
      (decide (resolvedKey (sweepPhase s p).flow_map p = p.flow_key)) = (fl2, true)) :
    s.process_packet p =
      { sweepPhase s p with
        flow_map := (eraseKey
          (updateKey (sweepPhase s p).flow_map (resolvedKey (sweepPhase s p).flow_map p) fl2)
          (resolvedKey (sweepPhase s p).flow_map p)),
        delivered := (sweepPhase s p).delivered ++ [fl2] } ∧
    containsKey (s.process_packet p).flow_map
      (resolvedKey (sweepPhase s p).flow_map p) = false := by
  have hcfg := sweepPhase_sameConfig s p
  have hopen1 : (sweepPhase s p).chanOpen = true := by rw [hcfg.2.2.2]; exact hopen
  have hexp1 : Flow.is_expired flow p.timestamp (sweepPhase s p).active_timeout
      (sweepPhase s p).idle_timeout = false := by
    rw [hcfg.1, hcfg.2.1]; exact hexp
  have hmain : s.process_packet p =
      { sweepPhase s p with
        flow_map := (eraseKey
          (updateKey (sweepPhase s p).flow_map (resolvedKey (sweepPhase s p).flow_map p) fl2)
          (resolvedKey (sweepPhase s p).flow_map p)),
        delivered := (sweepPhase s p).delivered ++ [fl2] } := by
    unfold FlowTable.process_packet
    rw [processBody_terminated (sweepPhase s p) p flow fl2 hlk hexp1 hupd]
    rw [export_flow_set_map_open (sweepPhase s p) _ fl2 hopen1]
  refine ⟨hmain, ?_⟩
  rw [hmain]
  exact containsKey_eraseKey_self _ _

theorem claim_C5_witness :
    (mkTable [(⟨1, 5, 2, 7, 6⟩, ⟨⟨1, 5, 2, 7, 6⟩, 1000, 3⟩)] 10 10 none (some 1000000) true).chanOpen = true ∧
    lookupKey (sweepPhase (mkTable [(⟨1, 5, 2, 7, 6⟩, ⟨⟨1, 5, 2, 7, 6⟩, 1000, 3⟩)] 10 10 none (some 1000000) true) (tpkt 1 5 2 7 6 1501)).flow_map
      (resolvedKey (sweepPhase (mkTable [(⟨1, 5, 2, 7, 6⟩, ⟨⟨1, 5, 2, 7, 6⟩, 1000, 3⟩)] 10 10 none (some 1000000) true) (tpkt 1 5 2 7 6 1501)).flow_map
        (tpkt 1 5 2 7 6 1501)) = some ⟨⟨1, 5, 2, 7, 6⟩, 1000, 3⟩ ∧
    Flow.is_expired (⟨⟨1, 5, 2, 7, 6⟩, 1000, 3⟩ : ToyFlow) (tpkt 1 5 2 7 6 1501).timestamp 10 10 = false ∧
    Flow.update_flow (⟨⟨1, 5, 2, 7, 6⟩, 1000, 3⟩ : ToyFlow) (tpkt 1 5 2 7 6 1501)
      (decide (resolvedKey (sweepPhase (mkTable [(⟨1, 5, 2, 7, 6⟩, ⟨⟨1, 5, 2, 7, 6⟩, 1000, 3⟩)] 10 10 none (some 1000000) true) (tpkt 1 5 2 7 6 1501)).flow_map
        (tpkt 1 5 2 7 6 1501) = (tpkt 1 5 2 7 6 1501).flow_key)) = (⟨⟨1, 5, 2, 7, 6⟩, 1000, 4⟩, true) ∧
    containsKey ((mkTable [(⟨1, 5, 2, 7, 6⟩, ⟨⟨1, 5, 2, 7, 6⟩, 1000, 3⟩)] 10 10 none (some 1000000) true).process_packet (tpkt 1 5 2 7 6 1501)).flow_map
      (resolvedKey (sweepPhase (mkTable [(⟨1, 5, 2, 7, 6⟩, ⟨⟨1, 5, 2, 7, 6⟩, 1000, 3⟩)] 10 10 none (some 1000000) true) (tpkt 1 5 2 7 6 1501)).flow_map
        (tpkt 1 5 2 7 6 1501)) = false :=
  ⟨rfl, by decide, by decide, by decide,
    (claim_C5 (mkTable [(⟨1, 5, 2, 7, 6⟩, ⟨⟨1, 5, 2, 7, 6⟩, 1000, 3⟩)] 10 10 none (some 1000000) true)
      (tpkt 1 5 2 7 6 1501) ⟨⟨1, 5, 2, 7, 6⟩, 1000, 3⟩ ⟨⟨1, 5, 2, 7, 6⟩, 1000, 4⟩
      rfl (by decide) (by decide) (by decide)).2⟩

/-- C6 counterexample: the claim says the early-export clone is sent **iff**
the whole-second duration `packet.timestamp - first_seen` strictly exceeds
the threshold (here 5 s).  In this concrete run the flow was first seen at
t = 100 s and the next packet (out of order, which §4.3/§7 explicitly allow)
arrives at t = 50 s: the duration is −50 s, which does not exceed 5 — yet the
clone IS exported, because the code computes
`(ts - first).num_seconds() as u64 > early_export` and the `as u64` cast
wraps −50 to `2^64 − 50`.  The flow remains in the map with 2 packets; the
single delivered item is its early-export clone. -/
theorem claim_C6_counterexample :
    (((mkTable [] 100 100 (some 5) none true).process_packet
      (tpkt 1 5 2 7 6 100000)).process_packet (tpkt 1 5 2 7 6 50000)).delivered =
      [⟨⟨1, 5, 2, 7, 6⟩, 100000, 2⟩] ∧
    lookupKey (((mkTable [] 100 100 (some 5) none true).process_packet
      (tpkt 1 5 2 7 6 100000)).process_packet (tpkt 1 5 2 7 6 50000)).flow_map
      ⟨1, 5, 2, 7, 6⟩ = some ⟨⟨1, 5, 2, 7, 6⟩, 100000, 2⟩ ∧
    num_seconds ((tpkt 1 5 2 7 6 50000).timestamp -
      Flow.get_first_timestamp (⟨⟨1, 5, 2, 7, 6⟩, 100000, 2⟩ : ToyFlow)) = -50 ∧
    ¬((-50 : Int) > (5 : Int)) :=
  ⟨by decide, by decide, by decide, by decide⟩

/-- C6 (amended): on an existing, non-expired, non-terminating flow with
`early_export = Some e`, a clone of the (updated) flow is exported if and
only if the whole-second duration `packet.timestamp - first_seen`,
**reinterpreted as a u64 (so that a duration of −1 s or less wraps to a huge
value)**, strictly exceeds `e`; the live flow itself stays in the map under
the same key with only its value updated in place, so the clone-export
recurs on every subsequent packet that satisfies the same condition. -/
theorem claim_C6 {T : Type} [Flow T] (s : FlowTable T) (p : PacketFeatures)
    (flow fl2 : T) (e : Nat) (hopen : s.chanOpen = true)
    (hlk : lookupKey (sweepPhase s p).flow_map
      (resolvedKey (sweepPhase s p).flow_map p) = some flow)
    (hexp : Flow.is_expired flow p.timestamp s.active_timeout s.idle_timeout = false)
    (hupd : Flow.update_flow flow p
      (decide (resolvedKey (sweepPhase s p).flow_map p = p.flow_key)) = (fl2, false))
    (he : s.early_export = some e) :
    s.process_packet p =
      (if asU64 (num_seconds (p.timestamp - Flow.get_first_timestamp fl2)) > e then
        { sweepPhase s p with
          flow_map := (updateKey (sweepPhase s p).flow_map
            (resolvedKey (sweepPhase s p).flow_map p) fl2),
          delivered := (sweepPhase s p).delivered ++ [fl2] }
      else
        { sweepPhase s p with
          flow_map := (updateKey (sweepPhase s p).flow_map
            (resolvedKey (sweepPhase s p).flow_map p) fl2) }) ∧
    containsKey (s.process_packet p).flow_map
      (resolvedKey (sweepPhase s p).flow_map p) = true := by
  have hcfg := sweepPhase_sameConfig s p
  have hopen1 : (sweepPhase s p).chanOpen = true := by rw [hcfg.2.2.2]; exact hopen
  have hexp1 : Flow.is_expired flow p.timestamp (sweepPhase s p).active_timeout
      (sweepPhase s p).idle_timeout = false := by
    rw [hcfg.1, hcfg.2.1]; exact hexp
  have he1 : (sweepPhase s p).early_export = some e := by
    rw [hcfg.2.2.1]; exact he
  have hmain : s.process_packet p =
      (if asU64 (num_seconds (p.timestamp - Flow.get_first_timestamp fl2)) > e then
        { sweepPhase s p with
          flow_map := (updateKey (sweepPhase s p).flow_map
            (resolvedKey (sweepPhase s p).flow_map p) fl2),
          delivered := (sweepPhase s p).delivered ++ [fl2] }
      else
        { sweepPhase s p with
          flow_map := (updateKey (sweepPhase s p).flow_map
            (resolvedKey (sweepPhase s p).flow_map p) fl2) }) := by
    unfold FlowTable.process_packet
    rw [processBody_update (sweepPhase s p) p flow fl2 hlk hexp1 hupd]
    simp only [he1]
    by_cases hcond : asU64 (num_seconds (p.timestamp - Flow.get_first_timestamp fl2)) > e
    · rw [if_pos hcond, if_pos hcond]
      simp [FlowTable.export_flow, hopen1]
    · rw [if_neg hcond, if_neg hcond]
  refine ⟨hmain, ?_⟩
  rw [hmain]
  by_cases hcond : asU64 (num_seconds (p.timestamp - Flow.get_first_timestamp fl2)) > e
  · rw [if_pos hcond]
    show containsKey (updateKey (sweepPhase s p).flow_map
      (resolvedKey (sweepPhase s p).flow_map p) fl2)
      (resolvedKey (sweepPhase s p).flow_map p) = true
    rw [containsKey_updateKey]
    simp [containsKey, hlk]
  · rw [if_neg hcond]
    show containsKey (updateKey (sweepPhase s p).flow_map
      (resolvedKey (sweepPhase s p).flow_map p) fl2)
      (resolvedKey (sweepPhase s p).flow_map p) = true
    rw [containsKey_updateKey]
    simp [containsKey, hlk]

theorem claim_C6_witness :
    ((mkTable [] 100 100 (some 5) none true).process_packet (tpkt 1 5 2 7 6 0)).chanOpen = true ∧
    lookupKey (sweepPhase ((mkTable [] 100 100 (some 5) none true).process_packet (tpkt 1 5 2 7 6 0)) (tpkt 1 5 2 7 6 20000)).flow_map
      (resolvedKey (sweepPhase ((mkTable [] 100 100 (some 5) none true).process_packet (tpkt 1 5 2 7 6 0)) (tpkt 1 5 2 7 6 20000)).flow_map
        (tpkt 1 5 2 7 6 20000)) = some ⟨⟨1, 5, 2, 7, 6⟩, 0, 1⟩ ∧
    Flow.update_flow (⟨⟨1, 5, 2, 7, 6⟩, 0, 1⟩ : ToyFlow) (tpkt 1 5 2 7 6 20000)
      (decide (resolvedKey (sweepPhase ((mkTable [] 100 100 (some 5) none true).process_packet (tpkt 1 5 2 7 6 0)) (tpkt 1 5 2 7 6 20000)).flow_map
        (tpkt 1 5 2 7 6 20000) = (tpkt 1 5 2 7 6 20000).flow_key)) = (⟨⟨1, 5, 2, 7, 6⟩, 0, 2⟩, false) ∧
    asU64 (num_seconds ((tpkt 1 5 2 7 6 20000).timestamp -
      Flow.get_first_timestamp (⟨⟨1, 5, 2, 7, 6⟩, 0, 2⟩ : ToyFlow))) > 5 ∧
    containsKey (((mkTable [] 100 100 (some 5) none true).process_packet (tpkt 1 5 2 7 6 0)).process_packet (tpkt 1 5 2 7 6 20000)).flow_map
      (resolvedKey (sweepPhase ((mkTable [] 100 100 (some 5) none true).process_packet (tpkt 1 5 2 7 6 0)) (tpkt 1 5 2 7 6 20000)).flow_map
        (tpkt 1 5 2 7 6 20000)) = true :=
  ⟨by decide, by decide, by decide, by decide,
    (claim_C6 ((mkTable [] 100 100 (some 5) none true).process_packet (tpkt 1 5 2 7 6 0))
      (tpkt 1 5 2 7 6 20000) ⟨⟨1, 5, 2, 7, 6⟩, 0, 1⟩ ⟨⟨1, 5, 2, 7, 6⟩, 0, 2⟩ 5
      (by decide) (by decide) (by decide) (by decide) (by decide)).2⟩

/-- C7: the shutdown flush empties the map and delivers exactly the drained
flows — each exactly once (a permutation of the map's values) — in
non-decreasing order of `get_first_timestamp`, for every initial map. -/
theorem claim_C7 {T : Type} [Flow T] (s : FlowTable T) (hopen : s.chanOpen = true) :
    s.export_all_flows.flow_map = [] ∧
    s.export_all_flows.delivered = s.delivered ++ sortedFlows s ∧
    (sortedFlows s).Perm (s.flow_map.map (fun kv => kv.2)) ∧
    List.Sorted (fun f g => Flow.get_first_timestamp f ≤ Flow.get_first_timestamp g)
      (sortedFlows s) := by
  have hfold := foldl_export_flow_open (sortedFlows s)
    { s with flow_map := ([] : List (FlowKey × T)) } hopen
  refine ⟨?_, ?_, ?_, ?_⟩
  · show ((sortedFlows s).foldl FlowTable.export_flow
      { s with flow_map := ([] : List (FlowKey × T)) }).flow_map = []
    rw [hfold]
  · show ((sortedFlows s).foldl FlowTable.export_flow
      { s with flow_map := ([] : List (FlowKey × T)) }).delivered = s.delivered ++ sortedFlows s
    rw [hfold]
  · exact List.perm_insertionSort _ _
  · haveI h1 : IsTotal T (fun f g => Flow.get_first_timestamp f ≤ Flow.get_first_timestamp g) :=
      ⟨fun a b => le_total _ _⟩
    haveI h2 : IsTrans T (fun f g => Flow.get_first_timestamp f ≤ Flow.get_first_timestamp g) :=
      ⟨fun _ _ _ hab hbc => le_trans hab hbc⟩
    exact List.sorted_insertionSort _ _

theorem claim_C7_witness :
    (mkTable [(⟨1, 5, 2, 7, 6⟩, ⟨⟨1, 5, 2, 7, 6⟩, 5000, 1⟩), (⟨3, 5, 4, 7, 6⟩, ⟨⟨3, 5, 4, 7, 6⟩, 2000, 1⟩)] 10 10 none none true).chanOpen = true ∧
    ((mkTable [(⟨1, 5, 2, 7, 6⟩, ⟨⟨1, 5, 2, 7, 6⟩, 5000, 1⟩), (⟨3, 5, 4, 7, 6⟩, ⟨⟨3, 5, 4, 7, 6⟩, 2000, 1⟩)] 10 10 none none true).export_all_flows.flow_map = [] ∧
     (mkTable [(⟨1, 5, 2, 7, 6⟩, ⟨⟨1, 5, 2, 7, 6⟩, 5000, 1⟩), (⟨3, 5, 4, 7, 6⟩, ⟨⟨3, 5, 4, 7, 6⟩, 2000, 1⟩)] 10 10 none none true).export_all_flows.delivered =
       (mkTable [(⟨1, 5, 2, 7, 6⟩, ⟨⟨1, 5, 2, 7, 6⟩, 5000, 1⟩), (⟨3, 5, 4, 7, 6⟩, ⟨⟨3, 5, 4, 7, 6⟩, 2000, 1⟩)] 10 10 none none true).delivered ++
       sortedFlows (mkTable [(⟨1, 5, 2, 7, 6⟩, ⟨⟨1, 5, 2, 7, 6⟩, 5000, 1⟩), (⟨3, 5, 4, 7, 6⟩, ⟨⟨3, 5, 4, 7, 6⟩, 2000, 1⟩)] 10 10 none none true) ∧
     (sortedFlows (mkTable [(⟨1, 5, 2, 7, 6⟩, ⟨⟨1, 5, 2, 7, 6⟩, 5000, 1⟩), (⟨3, 5, 4, 7, 6⟩, ⟨⟨3, 5, 4, 7, 6⟩, 2000, 1⟩)] 10 10 none none true)).Perm
       ((mkTable [(⟨1, 5, 2, 7, 6⟩, ⟨⟨1, 5, 2, 7, 6⟩, 5000, 1⟩), (⟨3, 5, 4, 7, 6⟩, ⟨⟨3, 5, 4, 7, 6⟩, 2000, 1⟩)] 10 10 none none true).flow_map.map (fun kv => kv.2)) ∧
     List.Sorted (fun f g => Flow.get_first_timestamp f ≤ Flow.get_first_timestamp g)
       (sortedFlows (mkTable [(⟨1, 5, 2, 7, 6⟩, ⟨⟨1, 5, 2, 7, 6⟩, 5000, 1⟩), (⟨3, 5, 4, 7, 6⟩, ⟨⟨3, 5, 4, 7, 6⟩, 2000, 1⟩)] 10 10 none none true))) :=
  ⟨rfl,
    claim_C7 (mkTable [(⟨1, 5, 2, 7, 6⟩, ⟨⟨1, 5, 2, 7, 6⟩, 5000, 1⟩), (⟨3, 5, 4, 7, 6⟩, ⟨⟨3, 5, 4, 7, 6⟩, 2000, 1⟩)] 10 10 none none true) rfl⟩

/-- C8: `export_expired_flows(now)` removes from the map and delivers exactly
once each flow expired at `now` (and no other), leaves only non-expired
flows, and changes nothing else; the key collection is completed over the
unmodified map before any removal happens (phase one of
`export_expired_flows` is a pure filter of the original map, as the record
equality shows). -/
theorem claim_C8 {T : Type} [Flow T] (s : FlowTable T) (now : Time)
    (hopen : s.chanOpen = true) (hnd : NodupKeys s.flow_map) :
    s.export_expired_flows now =
      { s with
        flow_map := s.flow_map.filter
          (fun kv => !(Flow.is_expired kv.2 now s.active_timeout s.idle_timeout)),
        delivered := s.delivered ++
          (s.flow_map.filter
            (fun kv => Flow.is_expired kv.2 now s.active_timeout s.idle_timeout)).map
            (fun kv => kv.2) } ∧
    ∀ kv ∈ (s.export_expired_flows now).flow_map,
      Flow.is_expired kv.2 now s.active_timeout s.idle_timeout = false := by
  have h := export_expired_flows_spec s now hopen hnd
  refine ⟨h, ?_⟩
  intro kv hkv
  rw [h] at hkv
  have hmem := List.of_mem_filter hkv
  simpa using hmem

theorem claim_C8_witness :
    (mkTable [(⟨1, 5, 2, 7, 6⟩, ⟨⟨1, 5, 2, 7, 6⟩, 0, 1⟩), (⟨3, 5, 4, 7, 6⟩, ⟨⟨3, 5, 4, 7, 6⟩, 95000, 1⟩)] 50 50 none none true).chanOpen = true ∧
    NodupKeys (mkTable [(⟨1, 5, 2, 7, 6⟩, ⟨⟨1, 5, 2, 7, 6⟩, 0, 1⟩), (⟨3, 5, 4, 7, 6⟩, ⟨⟨3, 5, 4, 7, 6⟩, 95000, 1⟩)] 50 50 none none true).flow_map ∧
    ((mkTable [(⟨1, 5, 2, 7, 6⟩, ⟨⟨1, 5, 2, 7, 6⟩, 0, 1⟩), (⟨3, 5, 4, 7, 6⟩, ⟨⟨3, 5, 4, 7, 6⟩, 95000, 1⟩)] 50 50 none none true).export_expired_flows 100000 =
      { mkTable [(⟨1, 5, 2, 7, 6⟩, ⟨⟨1, 5, 2, 7, 6⟩, 0, 1⟩), (⟨3, 5, 4, 7, 6⟩, ⟨⟨3, 5, 4, 7, 6⟩, 95000, 1⟩)] 50 50 none none true with
        flow_map := ((mkTable [(⟨1, 5, 2, 7, 6⟩, ⟨⟨1, 5, 2, 7, 6⟩, 0, 1⟩), (⟨3, 5, 4, 7, 6⟩, ⟨⟨3, 5, 4, 7, 6⟩, 95000, 1⟩)] 50 50 none none true).flow_map.filter
          (fun kv => !(Flow.is_expired kv.2 100000
            (mkTable [(⟨1, 5, 2, 7, 6⟩, ⟨⟨1, 5, 2, 7, 6⟩, 0, 1⟩), (⟨3, 5, 4, 7, 6⟩, ⟨⟨3, 5, 4, 7, 6⟩, 95000, 1⟩)] 50 50 none none true).active_timeout
            (mkTable [(⟨1, 5, 2, 7, 6⟩, ⟨⟨1, 5, 2, 7, 6⟩, 0, 1⟩), (⟨3, 5, 4, 7, 6⟩, ⟨⟨3, 5, 4, 7, 6⟩, 95000, 1⟩)] 50 50 none none true).idle_timeout))),
        delivered := (mkTable [(⟨1, 5, 2, 7, 6⟩, ⟨⟨1, 5, 2, 7, 6⟩, 0, 1⟩), (⟨3, 5, 4, 7, 6⟩, ⟨⟨3, 5, 4, 7, 6⟩, 95000, 1⟩)] 50 50 none none true).delivered ++
          ((mkTable [(⟨1, 5, 2, 7, 6⟩, ⟨⟨1, 5, 2, 7, 6⟩, 0, 1⟩), (⟨3, 5, 4, 7, 6⟩, ⟨⟨3, 5, 4, 7, 6⟩, 95000, 1⟩)] 50 50 none none true).flow_map.filter
            (fun kv => Flow.is_expired kv.2 100000
              (mkTable [(⟨1, 5, 2, 7, 6⟩, ⟨⟨1, 5, 2, 7, 6⟩, 0, 1⟩), (⟨3, 5, 4, 7, 6⟩, ⟨⟨3, 5, 4, 7, 6⟩, 95000, 1⟩)] 50 50 none none true).active_timeout
              (mkTable [(⟨1, 5, 2, 7, 6⟩, ⟨⟨1, 5, 2, 7, 6⟩, 0, 1⟩), (⟨3, 5, 4, 7, 6⟩, ⟨⟨3, 5, 4, 7, 6⟩, 95000, 1⟩)] 50 50 none none true).idle_timeout)).map
            (fun kv => kv.2) } ∧
     ∀ kv ∈ ((mkTable [(⟨1, 5, 2, 7, 6⟩, ⟨⟨1, 5, 2, 7, 6⟩, 0, 1⟩), (⟨3, 5, 4, 7, 6⟩, ⟨⟨3, 5, 4, 7, 6⟩, 95000, 1⟩)] 50 50 none none true).export_expired_flows 100000).flow_map,
       Flow.is_expired kv.2 100000
         (mkTable [(⟨1, 5, 2, 7, 6⟩, ⟨⟨1, 5, 2, 7, 6⟩, 0, 1⟩), (⟨3, 5, 4, 7, 6⟩, ⟨⟨3, 5, 4, 7, 6⟩, 95000, 1⟩)] 50 50 none none true).active_timeout
         (mkTable [(⟨1, 5, 2, 7, 6⟩, ⟨⟨1, 5, 2, 7, 6⟩, 0, 1⟩), (⟨3, 5, 4, 7, 6⟩, ⟨⟨3, 5, 4, 7, 6⟩, 95000, 1⟩)] 50 50 none none true).idle_timeout = false) :=
  ⟨rfl, by decide,
    claim_C8 (mkTable [(⟨1, 5, 2, 7, 6⟩, ⟨⟨1, 5, 2, 7, 6⟩, 0, 1⟩), (⟨3, 5, 4, 7, 6⟩, ⟨⟨3, 5, 4, 7, 6⟩, 95000, 1⟩)] 50 50 none none true) 100000 rfl (by decide)⟩

/-- C9: when the export channel's receiver is gone, `export_flow` logs the
error, drops the flow and returns normally: the resulting state differs from
the input only in the error-log counter — in particular the flow map, the
configuration, the schedule and the delivered list are untouched, and no
error is propagated (the function is total and never retries). -/
theorem claim_C9 {T : Type} (s : FlowTable T) (flow : T)
    (hclosed : s.chanOpen = false) :
    s.export_flow flow = { s with errorLog := s.errorLog + 1 } := by
  simp [FlowTable.export_flow, hclosed]

theorem claim_C9_witness :
    (mkTable [] 1 1 none none false).chanOpen = false ∧
    (mkTable [] 1 1 none none false).export_flow ⟨⟨1, 5, 2, 7, 6⟩, 0, 1⟩ =
      { mkTable [] 1 1 none none false with
        errorLog := (mkTable [] 1 1 none none false).errorLog + 1 } :=
  ⟨rfl, claim_C9 (mkTable [] 1 1 none none false) ⟨⟨1, 5, 2, 7, 6⟩, 0, 1⟩ rfl⟩

/-- C10: whenever `process_packet` creates a flow — no flow under the
resolved key, or an expired one replaced — the map afterwards holds, under
the created key, exactly `Flow.new` applied to that key and the packet's
addresses, ports, protocol and timestamp: the freshly created flow, on which
`update_flow` was never invoked for the creating packet. -/
theorem claim_C10 {T : Type} [Flow T] (s : FlowTable T) (p : PacketFeatures)
    (hcreate : creationCase (sweepPhase s p)
      (resolvedKey (sweepPhase s p).flow_map p) p = true) :
    lookupKey (s.process_packet p).flow_map
      (createdKey (sweepPhase s p) (resolvedKey (sweepPhase s p).flow_map p) p) =
      some (Flow.new
        (createdKey (sweepPhase s p) (resolvedKey (sweepPhase s p).flow_map p) p)
        p.source_ip p.source_port p.destination_ip p.destination_port
        p.protocol p.timestamp) := by
  unfold FlowTable.process_packet
  rcases hlk : lookupKey (sweepPhase s p).flow_map
    (resolvedKey (sweepPhase s p).flow_map p) with _ | flow
  · have hck : createdKey (sweepPhase s p) (resolvedKey (sweepPhase s p).flow_map p) p =
        resolvedKey (sweepPhase s p).flow_map p := by
      unfold createdKey
      rw [hlk]
    rw [processBody_none (sweepPhase s p) p hlk, hck]
    exact lookupKey_insertKey_self _ _ _
  · have hexp : Flow.is_expired flow p.timestamp (sweepPhase s p).active_timeout
        (sweepPhase s p).idle_timeout = true := by
      unfold creationCase at hcreate
      rw [hlk] at hcreate
      exact hcreate
    have hck : createdKey (sweepPhase s p) (resolvedKey (sweepPhase s p).flow_map p) p =
        p.flow_key := by
      unfold createdKey
      rw [hlk]
    rw [processBody_expired (sweepPhase s p) p flow hlk hexp, hck]
    exact lookupKey_insertKey_self _ _ _

theorem claim_C10_witness :
    creationCase (sweepPhase (mkTable [] 10 10 none none true) (tpkt 1 5 2 7 6 0))
      (resolvedKey (sweepPhase (mkTable [] 10 10 none none true) (tpkt 1 5 2 7 6 0)).flow_map
        (tpkt 1 5 2 7 6 0)) (tpkt 1 5 2 7 6 0) = true ∧
    lookupKey ((mkTable [] 10 10 none none true).process_packet (tpkt 1 5 2 7 6 0)).flow_map
      (createdKey (sweepPhase (mkTable [] 10 10 none none true) (tpkt 1 5 2 7 6 0))
        (resolvedKey (sweepPhase (mkTable [] 10 10 none none true) (tpkt 1 5 2 7 6 0)).flow_map
          (tpkt 1 5 2 7 6 0)) (tpkt 1 5 2 7 6 0)) =
      some (Flow.new
        (createdKey (sweepPhase (mkTable [] 10 10 none none true) (tpkt 1 5 2 7 6 0))
          (resolvedKey (sweepPhase (mkTable [] 10 10 none none true) (tpkt 1 5 2 7 6 0)).flow_map
            (tpkt 1 5 2 7 6 0)) (tpkt 1 5 2 7 6 0))
        (tpkt 1 5 2 7 6 0).source_ip (tpkt 1 5 2 7 6 0).source_port
        (tpkt 1 5 2 7 6 0).destination_ip (tpkt 1 5 2 7 6 0).destination_port
        (tpkt 1 5 2 7 6 0).protocol (tpkt 1 5 2 7 6 0).timestamp) :=
  ⟨by decide,
    claim_C10 (mkTable [] 10 10 none none true) (tpkt 1 5 2 7 6 0) (by decide)⟩

end RustiFlow
